import Mathlib

/-!
Verification of the RobustSession engine of irssi-robustirc.

This file gives a shallow embedding, in Lean 4, of the parts of the C source
relevant to the frozen claims:

  * `src/core/robustsession/robustsession-network.c` — the network registry
    (per-network target queue plus per-target exponential backoff),
  * `src/core/robustsession/robustsession.c` — completion classification,
    the streaming GetMessages JSON callbacks, and the send/retry path,
  * `src/core/robustio.c` — the host adapter write entry point.

Modelling conventions:

  * C strings are Lean `String`s (raw byte buffers, where NUL bytes matter,
    are `List Nat`).
  * `time_t` instants and `rand()` draws are `Nat`s passed explicitly.
  * GLib `GQueue`s are `List`s with the queue head at the front.
  * GLib `GHashTable`s with `g_str_hash`/`g_str_equal` are association lists
    with exact (case-sensitive) string keys; only lookup/replace/remove are
    used by the source.
  * unsigned 32 and 64 bit arithmetic is `Nat` arithmetic reduced mod 2^32
    or mod 2^64 at the points where the C code wraps.
  * paths where the C code dereferences NULL (undefined behaviour) return
    `none` of an `Option` type.
-/

/-- Definition of lowercasing a character the way `g_ascii_tolower` does:
only ASCII A-Z are mapped, all other characters are untouched. -/
def gAsciiTolower (c : Char) : Char :=
  if 'A' ≤ c ∧ c ≤ 'Z' then Char.ofNat (c.toNat + 32) else c

/-- Definition of `g_ascii_strdown`: ASCII-lowercase every character. -/
def gAsciiStrdown (s : String) : String :=
  String.mk (s.data.map gAsciiTolower)

/-- Case-insensitive ASCII equality of two strings, the zero test of
`strcasecmp` / `g_ascii_strncasecmp` over the full (equal) length. -/
def asciiCaseEq (a b : String) : Bool :=
  gAsciiStrdown a == gAsciiStrdown b

/-- The `backoff_state` struct of robustsession-network.c: exponent of the
current wait and the instant (`time_t`, modelled as `Nat` seconds) before
which the target must not be retried. -/
structure backoff_state where
  exponent : Nat
  next : Nat
deriving Repr, DecidableEq

/-- The `network_ctx` struct: the queue of `host:port` targets (head first)
and the per-target backoff hash table. -/
structure network_ctx where
  servers : List String
  backoff : List (String × backoff_state)
deriving Repr, DecidableEq

/-- Lookup in the backoff `GHashTable` (exact string key, `g_str_equal`). -/
def htLookup (bk : List (String × backoff_state)) (k : String) :
    Option backoff_state :=
  match bk.find? (fun p => p.1 == k) with
  | some p => some p.2
  | none => none

/-- Replacement in the backoff `GHashTable` (`g_hash_table_replace`): the
entry for `k` becomes `v`, all other entries are kept. The physical order of
an association list is irrelevant to `htLookup`. -/
def htReplace (bk : List (String × backoff_state)) (k : String)
    (v : backoff_state) : List (String × backoff_state) :=
  (k, v) :: bk.filter (fun p => p.1 != k)

/-- Removal from the backoff `GHashTable` (`g_hash_table_remove`). -/
def htRemove (bk : List (String × backoff_state)) (k : String) :
    List (String × backoff_state) :=
  bk.filter (fun p => p.1 != k)

/-- Embedding of `robustsession_network_failed` for a network that exists in
the registry: look up the backoff entry for `target` (a fresh zeroed entry if
absent), increment the exponent saturating at 6, and set
`next = now + 2^exponent + rnd % (exponent + 1)` where `rnd` is the `rand()`
draw made by this call. -/
def robustsession_network_failed (ctx : network_ctx) (target : String)
    (now rnd : Nat) : network_ctx :=
  let b0 := (htLookup ctx.backoff target).getD ⟨0, 0⟩
  let e := if b0.exponent < 6 then b0.exponent + 1 else b0.exponent
  { ctx with backoff := htReplace ctx.backoff target ⟨e, now + 2 ^ e + rnd % (e + 1)⟩ }

/-- Embedding of `robustsession_network_succeeded` for a registered network:
delete the backoff entry of `target`. -/
def robustsession_network_succeeded (ctx : network_ctx) (target : String) :
    network_ctx :=
  { ctx with backoff := htRemove ctx.backoff target }

/-- Iterate `robustsession_network_failed` on one target: each list element
is the `(time, rand-draw)` pair of one call, applied left to right with no
intervening `succeeded`. -/
def failed_times (ctx : network_ctx) (target : String) :
    List (Nat × Nat) → network_ctx
  | [] => ctx
  | (now, rnd) :: rest =>
      failed_times (robustsession_network_failed ctx target now rnd) target rest

/-- Definition of `LONG_MAX` on the 64-bit targets irssi builds for; used as
the seed of the `soonest` fold in `robustsession_network_server`. -/
def cLongMax : Nat := 2 ^ 63 - 1

/-- Eligibility test inlined twice in `robustsession_network_server`: a
target may be used when it has no backoff entry or its `next` instant has
passed (`backoff->next <= time(NULL)`). -/
def eligibleB (bk : List (String × backoff_state)) (now : Nat) (s : String) :
    Bool :=
  match htLookup bk s with
  | none => true
  | some b => b.next ≤ now

/-- Result of the scan loop inside `robustsession_network_server`: either
the first eligible target was found (`remaining` is the queue with that
target removed, order preserved) or every target is backed off and `soonest`
is the accumulated minimum wait. -/
inductive walk_out where
  | found (target : String) (remaining : List String)
  | blocked (soonest : Nat)
deriving Repr, DecidableEq

/-- Embedding of the `for` loop of `robustsession_network_server`: walk the
queue in order; the first target with no backoff entry or an expired one is
popped out; otherwise the minimum of `backoff->next - now` is folded into
`soonest` exactly as the C `if (wait < soonest)` does. -/
def serverLoop (bk : List (String × backoff_state)) (now : Nat) :
    List String → Nat → walk_out
  | [], soonest => .blocked soonest
  | s :: rest, soonest =>
    match htLookup bk s with
    | none => .found s rest
    | some b =>
      if b.next ≤ now then .found s rest
      else
        match serverLoop bk now rest
            (if b.next - now < soonest then b.next - now else soonest) with
        | .found f r => .found f (s :: r)
        | .blocked so => .blocked so

/-- Outcome of one `robustsession_network_server` call. `not_resolved` is the
`return FALSE` path; `picked` carries the target passed to the callback and
the queue as left behind; `scheduled` carries the timer delay, the rotated
queue, and the `random` flag stored in the retry context. -/
inductive pick_result where
  | not_resolved
  | picked (target : String) (servers : List String)
  | scheduled (soonest : Nat) (servers : List String) (random : Bool)
deriving Repr, DecidableEq

/-- Embedding of `robustsession_network_server` (the pick operation). `net`
is the registry entry for the (case-folded) address, `none` when the address
was never resolved. The result is `none` only on the undefined-behaviour
path where the C code pops from an empty queue and hashes a NULL pointer. -/
def robustsession_network_server (net : Option network_ctx) (now : Nat)
    (random : Bool) : Option pick_result :=
  match net with
  | none => some .not_resolved
  | some ctx =>
    match ctx.servers with
    | [] => none
    | server :: rest =>
      if eligibleB ctx.backoff now server then
        some (.picked server (server :: rest))
      else
        match serverLoop ctx.backoff now (rest ++ [server]) cLongMax with
        | .found f r => some (.picked f (f :: r))
        | .blocked soonest => some (.scheduled soonest (rest ++ [server]) random)

/-- Target delivered to the callback by one pick call, if any. -/
def delivered_target : Option pick_result → Option String
  | some (.picked t _) => some t
  | _ => none

/-- Zero test of `gcharcmp` in robustsession-network.c: nonzero when the
lengths differ, else `g_ascii_strncasecmp` over the whole length; the only
use is as the `GCompareFunc` of `g_queue_find_custom`, which tests for 0. -/
def gcharcmp_eq (a b : String) : Bool :=
  (a.length == b.length) && asciiCaseEq a b

/-- Embedding of `robustsession_network_update_servers` for a registered
network: if every entry of the new queue is found (case-insensitively) in the
stored queue, the update is discarded; otherwise the stored queue is replaced
wholesale by the new one. -/
def robustsession_network_update_servers (ctx : network_ctx)
    (servers : List String) : network_ctx :=
  if servers.all (fun s => ctx.servers.any (fun t => gcharcmp_eq t s)) then ctx
  else { ctx with servers := servers }

/-- Modelled from the spec: case-insensitive set equality of two target
lists, the comparison the spec's `update_targets` sentence speaks about. -/
def spec_set_equal_ci (a b : List String) : Bool :=
  a.all (fun s => b.any (fun t => asciiCaseEq s t)) &&
  b.all (fun s => a.any (fun t => asciiCaseEq s t))

/-- ASCII whitespace the way `g_ascii_isspace` classifies it. -/
def gAsciiIsspace (c : Char) : Bool :=
  c = ' ' ∨ c = '\t' ∨ c = '\n' ∨ c = '\x0b' ∨ c = '\x0c' ∨ c = '\r'

/-- Definition of `g_strstrip`: remove leading and trailing ASCII
whitespace. -/
def gStrstrip (s : String) : String :=
  String.mk (((s.data.dropWhile gAsciiIsspace).reverse.dropWhile
    gAsciiIsspace).reverse)

/-- Structural embedding of `g_strsplit(address, ",", -1)`: split the
character list at every comma (kept structural so concrete inputs evaluate
in the kernel). -/
def splitOnCommaChars : List Char → List (List Char)
  | [] => [[]]
  | c :: rest =>
    if c = ',' then [] :: splitOnCommaChars rest
    else
      match splitOnCommaChars rest with
      | q :: qs => (c :: q) :: qs
      | [] => [[c]]

/-- Split a C string at commas, as `g_strsplit(s, ",", -1)` does on a
non-empty string. -/
def gStrsplitComma (s : String) : List String :=
  (splitOnCommaChars s.data).map String.mk

/-- Lookup in the process-wide `networks` `GHashTable` (exact string key). -/
def regLookup (reg : List (String × network_ctx)) (k : String) :
    Option network_ctx :=
  match reg.find? (fun p => p.1 == k) with
  | some p => some p.2
  | none => none

/-- Insertion into the `networks` `GHashTable` (`g_hash_table_insert`
replaces any entry under an equal key). -/
def regInsert (reg : List (String × network_ctx)) (k : String)
    (v : network_ctx) : List (String × network_ctx) :=
  (k, v) :: reg.filter (fun p => p.1 != k)

/-- Synchronous outcome of one `robustsession_network_resolve` call:
whether the callback ran immediately, whether an asynchronous SRV lookup
was started, and the registry as left behind by the synchronous part. -/
structure resolve_result where
  immediate_callback : Bool
  srv_lookup_started : Bool
  networks : List (String × network_ctx)
deriving Repr, DecidableEq

/-- Embedding of `robustsession_network_resolve`. The cached-entry check
looks the raw `address` up, while registration stores the entry under
`g_ascii_strdown(address)`. A comma-separated address registers the
stripped, non-empty pieces directly (testing hook); otherwise an SRV lookup
is started asynchronously. -/
def robustsession_network_resolve (reg : List (String × network_ctx))
    (address : String) : resolve_result :=
  if (regLookup reg address).isSome then ⟨true, false, reg⟩
  else
    if 1 < (gStrsplitComma address).length then
      ⟨true, false,
        regInsert reg (gAsciiStrdown address)
          ⟨((gStrsplitComma address).map gStrstrip).filter (fun s => s != ""), []⟩⟩
    else ⟨false, true, reg⟩

/-- Result of `message->data.result` as seen by `check_multi_info`: either
`CURLE_OK` or any transport-level error. -/
inductive curl_code where
  | ok
  | transport_error
deriving Repr, DecidableEq

/-- The request kinds of `struct t_robustirc_request`. -/
inductive request_type where
  | rt_createsession
  | rt_deletesession
  | rt_postmessage
  | rt_getmessages
deriving Repr, DecidableEq

/-- One completed HTTP request as read off the curl message by
`check_multi_info`. -/
structure completion where
  result : curl_code
  http_code : Nat
  type : request_type
deriving Repr, DecidableEq

/-- Observable outcome of `check_multi_info` handling one completed
request: which registry call was made, whether the request was re-issued
through `robustsession_network_server` with `retry_request`, and whether the
session was torn down (`connection_lost` set and `server_disconnect`
emitted). -/
structure completion_outcome where
  network_failed : Bool
  network_succeeded : Bool
  retried : Bool
  connection_lost : Bool
  disconnected : Bool
deriving Repr, DecidableEq

/-- Embedding of the classification block of `check_multi_info` for one
completed request: `error` is any transport error or any HTTP status other
than exactly 200; `temporary` is any transport error or a 5xx status; a
finished GetMessages is treated like an error even on status 200. -/
def check_multi_info_one (m : completion) : completion_outcome :=
  let error := (m.result != curl_code.ok) || (m.http_code != 200)
  let temporary := (m.result != curl_code.ok) ||
    (decide (500 ≤ m.http_code) && decide (m.http_code < 600))
  let nf := error || (m.type == request_type.rt_getmessages)
  if (error && temporary) || (!error && (m.type == request_type.rt_getmessages)) then
    ⟨nf, !nf, true, false, false⟩
  else if error && !temporary then
    ⟨nf, !nf, false, true, true⟩
  else
    ⟨nf, !nf, false, false, false⟩

/-- Cast of a `long long` JSON integer to `uint64_t` as `(uint64_t)val`
does: reduction mod 2^64. -/
def u64cast (v : Int) : Nat :=
  (v % (2 : Int) ^ 64).toNat

/-- One yajl callback event of the streaming GetMessages parser. Only the
callbacks `gm_callbacks` actually installs are modelled (null/bool/double
slots are NULL in the C table). -/
inductive gm_event where
  | map_key (s : String)
  | int_val (v : Int)
  | str_val (s : String)
  | start_map
  | end_map
  | start_array
  | end_array
deriving Repr, DecidableEq

/-- Parser fields of `struct t_robustirc_request` used while consuming the
GetMessages stream. -/
structure gm_request where
  last_key : Option String
  data : Option String
  parsing_id : Bool
  parsing_servers : Bool
  last_id_id : Nat
  last_id_reply : Nat
  last_type : Int
  depth : Int
  servers : Option (List String)
deriving Repr, DecidableEq

/-- Session-level cursor of `struct t_robustsession_ctx`. The C code stores
the rendered string `"<id>.<reply>"`; since every write renders a pair and
the rendering is injective, the model stores the pair and derives the
string through `renderLastseen`. -/
structure session_ctx where
  lastseen : Nat × Nat
deriving Repr, DecidableEq

/-- Rendering of the cursor exactly as the `g_strdup_printf` format
string with two unsigned 64-bit integers separated by a dot produces it. -/
def renderLastseen (p : Nat × Nat) : String :=
  toString p.1 ++ "." ++ toString p.2

/-- Observable side effects of one parser event: `incoming` is the
`rawlog_input` plus `server incoming` signal pair, `cursor_set` the
assignment to `ctx->lastseen`, `timer_reset` the idle-timeout re-arm,
`servers_update` the `robustsession_network_update_servers` call (with the
possibly-NULL scratch queue), `succeeded_call` the
`robustsession_network_succeeded` call. Order in the list is the order the
C statements execute. -/
inductive gm_effect where
  | incoming (line : String)
  | cursor_set (p : Nat × Nat)
  | timer_reset
  | servers_update (q : Option (List String))
  | succeeded_call
deriving Repr, DecidableEq

/-- Embedding of `gm_json_map_key`: remember the most recent key. -/
def gm_json_map_key (r : gm_request) (s : String) : gm_request :=
  { r with last_key := some s }

/-- Embedding of `gm_json_integer`: inside an `Id` object, `id`/`reply`
(case-insensitive) set the 64-bit fields; a top-level `type` key sets
`last_type`. Without a current key the value is ignored. -/
def gm_json_integer (r : gm_request) (v : Int) : gm_request :=
  match r.last_key with
  | none => r
  | some k =>
    let r1 :=
      if r.parsing_id then
        if asciiCaseEq k "id" then { r with last_id_id := u64cast v }
        else if asciiCaseEq k "reply" then { r with last_id_reply := u64cast v }
        else r
      else r
    if asciiCaseEq k "type" then { r1 with last_type := v } else r1

/-- Embedding of `gm_json_string`: while parsing the `Servers` array every
string is appended to the scratch queue; otherwise a string under the
`data` key replaces the accumulated `data` field. -/
def gm_json_string (r : gm_request) (s : String) : gm_request :=
  if r.parsing_servers then
    match r.servers with
    | some q => { r with servers := some (q ++ [s]) }
    | none => r
  else
    match r.last_key with
    | none => r
    | some k =>
      if asciiCaseEq k "data" then { r with data := some s } else r

/-- Embedding of `gm_json_start_array`: a `Servers` key opens the scratch
queue. -/
def gm_json_start_array (r : gm_request) : gm_request :=
  match r.last_key with
  | some k =>
    if asciiCaseEq k "servers" then
      { r with parsing_servers := true, servers := some [] }
    else r
  | none => r

/-- Embedding of `gm_json_end_array`. -/
def gm_json_end_array (r : gm_request) : gm_request :=
  { r with parsing_servers := false }

/-- Embedding of `gm_json_start_map`: `parsing_id` is set when the pending
key is `id`, and the depth counter is incremented. -/
def gm_json_start_map (r : gm_request) : gm_request :=
  { r with
    parsing_id := match r.last_key with
      | some k => asciiCaseEq k "id"
      | none => false
    depth := r.depth + 1 }

/-- Embedding of `gm_json_end_map`: close an object. A frame completes when
the depth returns to 0; a frame whose accumulated `data` is non-NULL and
whose `Type` is 3 is dispatched to the host (signal first) and the cursor is
then set to the frame's `(Id.Id, Id.Reply)`; a `Type` 4 frame resets the
idle timer and hands the scratch queue to the registry; every completed
frame reports `succeeded` for the current target. -/
def gm_json_end_map (r : gm_request) (c : session_ctx) :
    gm_request × session_ctx × List gm_effect :=
  let r1 : gm_request := { r with parsing_id := false, depth := r.depth - 1 }
  if 0 < r1.depth then (r1, c, [])
  else
    let step3 : gm_request × session_ctx × List gm_effect :=
      match r1.data with
      | some d =>
        if r1.last_type = 3 then
          ({ r1 with data := none },
           { c with lastseen := (r1.last_id_id, r1.last_id_reply) },
           [gm_effect.incoming d,
            gm_effect.cursor_set (r1.last_id_id, r1.last_id_reply)])
        else (r1, c, [])
      | none => (r1, c, [])
    let step4 : gm_request × List gm_effect :=
      if step3.1.last_type = 4 then
        ({ step3.1 with servers := none },
         [gm_effect.timer_reset, gm_effect.servers_update step3.1.servers])
      else (step3.1, [])
    (step4.1, step3.2.1, step3.2.2 ++ step4.2 ++ [gm_effect.succeeded_call])

/-- One parser step: dispatch a yajl event to the matching callback. -/
def gm_step (st : gm_request × session_ctx) (e : gm_event) :
    (gm_request × session_ctx) × List gm_effect :=
  match e with
  | .map_key s => ((gm_json_map_key st.1 s, st.2), [])
  | .int_val v => ((gm_json_integer st.1 v, st.2), [])
  | .str_val s => ((gm_json_string st.1 s, st.2), [])
  | .start_map => ((gm_json_start_map st.1, st.2), [])
  | .end_map =>
    match gm_json_end_map st.1 st.2 with
    | (r, c, es) => ((r, c), es)
  | .start_array => ((gm_json_start_array st.1, st.2), [])
  | .end_array => ((gm_json_end_array st.1, st.2), [])

/-- Run the parser over a list of events, collecting all effects. -/
def gm_run (st : gm_request × session_ctx) :
    List gm_event → (gm_request × session_ctx) × List gm_effect
  | [] => (st, [])
  | e :: es =>
    let s1 := gm_step st e
    let s2 := gm_run s1.1 es
    (s2.1, s1.2 ++ s2.2)

/-- All states the parser passes through (initial state included). -/
def gm_run_states (st : gm_request × session_ctx) :
    List gm_event → List (gm_request × session_ctx)
  | [] => [st]
  | e :: es => st :: gm_run_states (gm_step st e).1 es

/-- Zero-initialised request (`g_new0`): no key, no data, flags off, ids
zero, type 0, depth 0, no scratch queue. -/
def gm_init_request : gm_request :=
  ⟨none, none, false, false, 0, 0, 0, 0, none⟩

/-- Fresh session context: `ctx->lastseen = g_strdup("0.0")`. -/
def gm_init_ctx : session_ctx :=
  ⟨(0, 0)⟩

/-- The cursor values written during a run, in order. -/
def cursorSets : List gm_effect → List (Nat × Nat)
  | [] => []
  | gm_effect.cursor_set p :: es => p :: cursorSets es
  | _ :: es => cursorSets es

/-- Order on cursors: the `(Id, Reply)` pairs compared lexicographically,
matching the replay semantics of the `lastseen` query parameter. -/
def pairLe (a b : Nat × Nat) : Prop :=
  a.1 < b.1 ∨ (a.1 = b.1 ∧ a.2 ≤ b.2)

instance pairLe_decidable (a b : Nat × Nat) : Decidable (pairLe a b) :=
  inferInstanceAs (Decidable (_ ∨ _))

/-- Event list of a Type-3 frame with Id pair (5, 1) and data `"x"`. -/
def gm_frame_a : List gm_event :=
  [.start_map, .map_key "Id", .start_map, .map_key "Id", .int_val 5,
   .map_key "Reply", .int_val 1, .end_map, .map_key "Type", .int_val 3,
   .map_key "Data", .str_val "x", .end_map]

/-- Event list of a Type-3 frame with Id pair (3, 0) and data `"y"`. -/
def gm_frame_b : List gm_event :=
  [.start_map, .map_key "Id", .start_map, .map_key "Id", .int_val 3,
   .map_key "Reply", .int_val 0, .end_map, .map_key "Type", .int_val 3,
   .map_key "Data", .str_val "y", .end_map]

/-- Event list of a Type-3 frame whose `Data` is the empty string, with Id
pair (1, 2). -/
def gm_frame_empty_data : List gm_event :=
  [.start_map, .map_key "Type", .int_val 3, .map_key "Data", .str_val "",
   .map_key "Id", .start_map, .map_key "Id", .int_val 1,
   .map_key "Reply", .int_val 2, .end_map, .end_map]

/-- Definition of `g_str_hash` (the djb hash): `h = 5381`, then
`h = h * 33 + byte` for every byte, in 32-bit unsigned arithmetic. IRC
lines are ASCII, so characters stand in for bytes. -/
def g_str_hash (s : String) : Nat :=
  s.data.foldl (fun h c => (h * 33 + c.toNat) % 2 ^ 32) 5381

/-- The `ClientMessageId` generated by `robustsession_send_target`:
`g_str_hash(buffer) + (guint)rand()` in 32-bit unsigned arithmetic, with
`rnd` the `rand()` draw made once by this send. -/
def clientMessageId (buf : String) (rnd : Nat) : Nat :=
  (g_str_hash buf + rnd) % 2 ^ 32

/-- The JSON body yajl_gen produces in `robustsession_send_target`:
`{"Data": <data>, "ClientMessageId": <id>}`. -/
structure post_message_body where
  data : String
  client_message_id : Nat
deriving Repr, DecidableEq

/-- The fields of `struct t_robustirc_request` relevant to the send/retry
path. `response_body` is the accumulated HTTP response buffer
(`t_body_buffer`), `post_body` the POST payload curl keeps from
`CURLOPT_COPYPOSTFIELDS` (none for requests without a body). -/
structure t_robustirc_request where
  type : request_type
  target : String
  url_suffix : String
  response_body : Option String
  post_body : Option post_message_body
deriving Repr, DecidableEq

/-- Embedding of `robustsession_send_target`: build the PostMessage request
for `buf` against `target`, drawing `rnd` from `rand()` once, at send
time. -/
def robustsession_send_target (sessionid target buf : String) (rnd : Nat) :
    t_robustirc_request :=
  { type := request_type.rt_postmessage
    target := target
    url_suffix := "/robustirc/v1/" ++ sessionid ++ "/message"
    response_body := none
    post_body := some ⟨buf, clientMessageId buf rnd⟩ }

/-- Embedding of `retry_request` as far as the request record is concerned:
the response buffer is reset and the target replaced; the URL is rebuilt
from the unchanged `url_suffix`, and the POST payload held by the curl
handle is not regenerated. (For GetMessages the yajl parser is additionally
rebuilt; no field of this record is affected.) -/
def retry_request (req : t_robustirc_request) (newTarget : String) :
    t_robustirc_request :=
  { req with target := newTarget, response_body := none }

/-- ClientMessageIds produced by a sequence of separate `send` calls for
the same buffer, one `rand()` draw each. -/
def send_ids (buf : String) (draws : List Nat) : List Nat :=
  draws.map (clientMessageId buf)

/-- Reading a C string out of a byte buffer, as `g_strdup` does: the bytes
before the first NUL. A buffer with no NUL at all makes `g_strdup` read out
of bounds (undefined behaviour), modelled as `none`. -/
def c_string_read : List Nat → Option (List Nat)
  | [] => none
  | b :: rest =>
    if b = 0 then some []
    else (c_string_read rest).map (fun t => b :: t)

/-- Embedding of `robustsession_send`: the `size_buf` argument is explicitly
discarded (`(void)size_buf`) and the buffer is copied with `g_strdup`, so
the data later framed (via `strlen`) is the NUL-terminated content only. -/
def robustsession_send (buffer : List Nat) (size_buf : Nat) :
    Option (List Nat) :=
  c_string_read buffer

/-- Embedding of `robust_io_write`: forward the buffer and count to
`robustsession_send` and report `*bytes_written = count`, status NORMAL.
The result pairs the bytes actually framed as `Data` with the byte count
reported as written. -/
def robust_io_write (buf : List Nat) (count : Nat) :
    Option (List Nat × Nat) :=
  (robustsession_send buf count).map (fun d => (d, count))

theorem htLookup_htReplace_same (bk : List (String × backoff_state))
    (k : String) (v : backoff_state) : htLookup (htReplace bk k v) k = some v := by
  simp [htLookup, htReplace, List.find?]

theorem failed_exponent_step (ctx : network_ctx) (t : String) (now rnd e n : Nat)
    (h : htLookup ctx.backoff t = some ⟨e, n⟩) :
    htLookup (robustsession_network_failed ctx t now rnd).backoff t =
      some ⟨if e < 6 then e + 1 else e,
            now + 2 ^ (if e < 6 then e + 1 else e) +
              rnd % ((if e < 6 then e + 1 else e) + 1)⟩ := by
  simp [robustsession_network_failed, h, htLookup_htReplace_same]

theorem failed_exponent_first (ctx : network_ctx) (t : String) (now rnd : Nat)
    (h : htLookup ctx.backoff t = none) :
    htLookup (robustsession_network_failed ctx t now rnd).backoff t =
      some ⟨1, now + 2 ^ 1 + rnd % 2⟩ := by
  simp [robustsession_network_failed, h, htLookup_htReplace_same]

/-- Helper invariant: starting from exponent `e` (an existing entry), `k`
further failures leave the exponent at `min (e + k) 6` provided `1 ≤ e ≤ 6`,
and the `next` field is the one written by the last call. -/
theorem failed_times_invariant (t : String) :
    ∀ (l : List (Nat × Nat)) (ctx : network_ctx) (e n : Nat),
      1 ≤ e → e ≤ 6 → htLookup ctx.backoff t = some ⟨e, n⟩ →
      ∀ (hne : l ≠ []),
      ∃ m, htLookup (failed_times ctx t l).backoff t =
        some ⟨min (e + l.length) 6, m⟩ ∧
        m = (l.getLast hne).1 + 2 ^ min (e + l.length) 6 +
            (l.getLast hne).2 % (min (e + l.length) 6 + 1)
  | [], _, _, _, _, _, _, hne => absurd rfl hne
  | (now, rnd) :: rest, ctx, e, n, he1, he6, hlk, _ => by
      have hif : (if e < 6 then e + 1 else e) = min (e + 1) 6 := by
        split <;> omega
      have hstep := failed_exponent_step ctx t now rnd e n hlk
      by_cases hrest : rest = []
      · subst hrest
        refine ⟨now + 2 ^ min (e + 1) 6 + rnd % (min (e + 1) 6 + 1), ?_, ?_⟩
        · simp only [failed_times]
          rw [hstep, hif]
          simp
        · simp
      · have he1' : 1 ≤ min (e + 1) 6 := by omega
        have he6' : min (e + 1) 6 ≤ 6 := by omega
        rw [hif] at hstep
        obtain ⟨m, hm, hmval⟩ := failed_times_invariant t rest
          (robustsession_network_failed ctx t now rnd) (min (e + 1) 6) _
          he1' he6' hstep hrest
        have hmin : min (min (e + 1) 6 + rest.length) 6 =
            min (e + ((now, rnd) :: rest).length) 6 := by
          simp only [List.length_cons]
          omega
        refine ⟨m, ?_, ?_⟩
        · simp only [failed_times]
          rw [hm, hmin]
        · rw [hmval]
          have hlast : ((now, rnd) :: rest).getLast (by simp) =
              rest.getLast hrest := List.getLast_cons hrest
          rw [hlast, hmin]

/-- Claim C4: for every target of a registered network, after `k` consecutive
`failed(address, target)` calls (the list `l` holds the `(now, rand)` data of
each call, last call last) with no intervening `succeeded`, the backoff entry
has exponent `min k 6`, and `next_attempt - now` (with `now` the time of the
last call) lies in the closed interval `[2^min(k,6), 2^min(k,6) + min(k,6)]`;
the jitter `next_attempt - now - 2^min(k,6)` is an integer in
`[0, exponent]`. -/
theorem robustsession_backoff_bound (ctx : network_ctx) (t : String)
    (l : List (Nat × Nat)) (hne : l ≠ [])
    (hnone : htLookup ctx.backoff t = none) :
    ∃ expo nxt, htLookup (failed_times ctx t l).backoff t = some ⟨expo, nxt⟩ ∧
      expo = min l.length 6 ∧
      2 ^ min l.length 6 ≤ nxt - (l.getLast hne).1 ∧
      nxt - (l.getLast hne).1 ≤ 2 ^ min l.length 6 + min l.length 6 ∧
      nxt - (l.getLast hne).1 - 2 ^ min l.length 6 ≤ expo := by
  have key : ∀ (a P j E2 : Nat), j ≤ E2 →
      P ≤ a + P + j - a ∧ a + P + j - a ≤ P + E2 ∧ a + P + j - a - P ≤ E2 := by
    intro a P j E2 hj
    omega
  match l, hne with
  | (now0, rnd0) :: rest, _ =>
    have h1 := failed_exponent_first ctx t now0 rnd0 hnone
    by_cases hrest : rest = []
    · subst hrest
      have h2 : rnd0 % 2 < 2 := Nat.mod_lt _ (by omega)
      have hL : min ((now0, rnd0) :: ([] : List (Nat × Nat))).length 6 = 1 := rfl
      refine ⟨1, now0 + 2 ^ 1 + rnd0 % 2,
        by simpa only [failed_times] using h1, ?_, ?_, ?_, ?_⟩ <;>
        simp only [hL, List.getLast] <;> omega
    · have hjit : (rest.getLast hrest).2 % (min (1 + rest.length) 6 + 1) ≤
          min (1 + rest.length) 6 := by
        have := Nat.mod_lt (rest.getLast hrest).2
          (y := min (1 + rest.length) 6 + 1) (by omega)
        omega
      obtain ⟨m, hm, hmval⟩ := failed_times_invariant t rest
        (robustsession_network_failed ctx t now0 rnd0) 1 (now0 + 2 ^ 1 + rnd0 % 2)
        (by omega) (by omega) h1 hrest
      have hlen : min (1 + rest.length) 6 = min ((now0, rnd0) :: rest).length 6 := by
        simp only [List.length_cons]
        omega
      have harith := key (rest.getLast hrest).1 (2 ^ min (1 + rest.length) 6)
        ((rest.getLast hrest).2 % (min (1 + rest.length) 6 + 1))
        (min (1 + rest.length) 6) hjit
      refine ⟨min (1 + rest.length) 6, m, by simpa only [failed_times] using hm,
        hlen, ?_, ?_, ?_⟩ <;>
        rw [List.getLast_cons hrest, hmval, ← hlen]
      · exact harith.1
      · exact harith.2.1.trans (by omega)
      · exact harith.2.2

/-- Witness for claim C4 at a concrete input: two consecutive failures of
target `a:1` at times 100 and 200 with rand draws 5 and 3 yield exponent
`min 2 6 = 2` and a wait within `[4, 6]` seconds of the second failure. -/
theorem robustsession_backoff_bound_witness :
    htLookup (network_ctx.mk ["a:1"] []).backoff "a:1" = none ∧
    ∃ expo nxt,
      htLookup (failed_times ⟨["a:1"], []⟩ "a:1" [(100, 5), (200, 3)]).backoff
        "a:1" = some ⟨expo, nxt⟩ ∧
      expo = min ([(100, 5), (200, 3)] : List (Nat × Nat)).length 6 ∧
      2 ^ min ([(100, 5), (200, 3)] : List (Nat × Nat)).length 6 ≤
        nxt - (([(100, 5), (200, 3)] : List (Nat × Nat)).getLast (by simp)).1 ∧
      nxt - (([(100, 5), (200, 3)] : List (Nat × Nat)).getLast (by simp)).1 ≤
        2 ^ min ([(100, 5), (200, 3)] : List (Nat × Nat)).length 6 +
          min ([(100, 5), (200, 3)] : List (Nat × Nat)).length 6 ∧
      nxt - (([(100, 5), (200, 3)] : List (Nat × Nat)).getLast (by simp)).1 -
        2 ^ min ([(100, 5), (200, 3)] : List (Nat × Nat)).length 6 ≤ expo :=
  ⟨rfl, robustsession_backoff_bound ⟨["a:1"], []⟩ "a:1" [(100, 5), (200, 3)]
    (by simp) rfl⟩

/-- Claim C10: for every fixed registry state and clock value, the target
delivered by `robustsession_network_server` is the same for `random = true`
and `random = false` (and for any two values of the flag): the flag is only
stored in the retry context and never influences selection. -/
theorem pick_ignores_random_flag (net : Option network_ctx) (now : Nat)
    (r1 r2 : Bool) :
    delivered_target (robustsession_network_server net now r1) =
      delivered_target (robustsession_network_server net now r2) := by
  cases net with
  | none => rfl
  | some ctx =>
    cases hs : ctx.servers with
    | nil => simp [robustsession_network_server, hs]
    | cons s rest =>
      simp only [robustsession_network_server, hs]
      split
      · rfl
      · cases serverLoop ctx.backoff now (rest ++ [s]) cLongMax <;> rfl

theorem eligibleB_false {bk : List (String × backoff_state)} {now : Nat}
    {s : String} (h : eligibleB bk now s = false) :
    ∃ b, htLookup bk s = some b ∧ now < b.next := by
  unfold eligibleB at h
  cases hlk : htLookup bk s with
  | none => rw [hlk] at h; simp at h
  | some b =>
      rw [hlk] at h
      simp only [decide_eq_false_iff_not, Nat.not_le] at h
      exact ⟨b, rfl, h⟩

/-- Helper: the scan loop returns the first eligible target of the queue,
removed from its position, when one exists. -/
theorem serverLoop_found (bk : List (String × backoff_state)) (now : Nat) :
    ∀ (q : List String) (i : Nat) (hlt : i < q.length) (acc : Nat),
      (∀ j (hj : j < i), eligibleB bk now (q.get ⟨j, by omega⟩) = false) →
      eligibleB bk now (q.get ⟨i, hlt⟩) = true →
      serverLoop bk now q acc = .found (q.get ⟨i, hlt⟩) (q.eraseIdx i)
  | [], i, hlt, _, _, _ => by simp at hlt
  | s :: rest, 0, hlt, acc, _, helig => by
      have hget : (s :: rest).get ⟨0, hlt⟩ = s := rfl
      rw [hget] at helig ⊢
      unfold eligibleB at helig
      cases hlk : htLookup bk s with
      | none => simp [serverLoop, hlk, List.eraseIdx]
      | some b =>
          rw [hlk] at helig
          simp only [decide_eq_true_eq] at helig
          simp [serverLoop, hlk, helig, List.eraseIdx]
  | s :: rest, i + 1, hlt, acc, hprev, helig => by
      have h0 : eligibleB bk now s = false := by
        have := hprev 0 (by omega)
        simpa using this
      obtain ⟨b, hb, hnb⟩ := eligibleB_false h0
      have hnle : ¬ b.next ≤ now := by omega
      have hlt2 : i < rest.length := by
        simp only [List.length_cons] at hlt
        omega
      have hrec := serverLoop_found bk now rest i hlt2
        (if b.next - now < acc then b.next - now else acc)
        (fun j hj => by simpa using hprev (j + 1) (by omega))
        (by simpa using helig)
      simp [serverLoop, hb, hnle, hrec, List.eraseIdx]

/-- Helper: when every target of the queue is backed off, the scan loop
returns the fold of `min` over all waits `next - now`, seeded with `acc`. -/
theorem serverLoop_blocked (bk : List (String × backoff_state)) (now : Nat) :
    ∀ (q : List String) (acc : Nat),
      (∀ x ∈ q, eligibleB bk now x = false) →
      serverLoop bk now q acc = .blocked
        ((q.filterMap (fun x => (htLookup bk x).map (fun b => b.next - now))).foldl
          (fun a w => if w < a then w else a) acc)
  | [], acc, _ => rfl
  | s :: rest, acc, hall => by
      obtain ⟨b, hb, hnb⟩ := eligibleB_false (hall s (by simp))
      have hnle : ¬ b.next ≤ now := by omega
      have hrec := serverLoop_blocked bk now rest
        (if b.next - now < acc then b.next - now else acc)
        (fun x hx => hall x (by simp [hx]))
      simp [serverLoop, hb, hnle, hrec, List.filterMap_cons]

/-- Claim C5: `robustsession_network_server` returns FALSE exactly when the
address was never resolved; otherwise, with a non-empty target queue (spec
invariant 5): an eligible head is requeued at the head and delivered;
an ineligible head is requeued at the tail, and the first target of the
rotated queue whose backoff has expired is pulled out, pushed to the head,
and delivered; when no target is eligible a re-pick is scheduled after the
minimum of `next_attempt - now` over all targets. -/
theorem robustsession_network_server_spec (net : Option network_ctx)
    (now : Nat) (random : Bool) (hne : ∀ c, net = some c → c.servers ≠ []) :
    (robustsession_network_server net now random = some .not_resolved ↔
      net = none) ∧
    (∀ ctx s rest, net = some ctx → ctx.servers = s :: rest →
      (eligibleB ctx.backoff now s = true →
        robustsession_network_server net now random =
          some (.picked s (s :: rest))) ∧
      (eligibleB ctx.backoff now s = false →
        ∀ i (hlt : i < (rest ++ [s]).length),
          (∀ j (hj : j < i),
            eligibleB ctx.backoff now ((rest ++ [s]).get ⟨j, by omega⟩) = false) →
          eligibleB ctx.backoff now ((rest ++ [s]).get ⟨i, hlt⟩) = true →
          robustsession_network_server net now random =
            some (.picked ((rest ++ [s]).get ⟨i, hlt⟩)
              (((rest ++ [s]).get ⟨i, hlt⟩) :: (rest ++ [s]).eraseIdx i))) ∧
      (eligibleB ctx.backoff now s = false →
        (∀ x ∈ rest ++ [s], eligibleB ctx.backoff now x = false) →
        robustsession_network_server net now random =
          some (.scheduled
            (((rest ++ [s]).filterMap
                (fun x => (htLookup ctx.backoff x).map (fun b => b.next - now))).foldl
              (fun a w => if w < a then w else a) cLongMax)
            (rest ++ [s]) random))) := by
  constructor
  · constructor
    · intro h
      cases net with
      | none => rfl
      | some ctx =>
        cases hs : ctx.servers with
        | nil => exact absurd hs (hne ctx rfl)
        | cons s rest =>
          simp only [robustsession_network_server, hs] at h
          split at h
          · simp at h
          · split at h <;> simp at h
    · intro h
      subst h
      rfl
  · intro ctx s rest hnet hs
    subst hnet
    refine ⟨?_, ?_, ?_⟩
    · intro helig
      simp [robustsession_network_server, hs, helig]
    · intro hfalse i hlt hprev heligi
      have hfound := serverLoop_found ctx.backoff now (rest ++ [s]) i hlt
        cLongMax hprev heligi
      simp [robustsession_network_server, hs, hfalse, hfound]
    · intro hfalse hall
      have hblk := serverLoop_blocked ctx.backoff now (rest ++ [s]) cLongMax hall
      simp [robustsession_network_server, hs, hfalse, hblk]

/-- Witness for claim C5 at a concrete input: with queue `[a, b, c]`, head
`a` backed off until 100, `b` until 80, `c` free, at time 50 the pick rotates
`a` to the tail and delivers `c`, the first expired target of the rotated
queue, pushing it to the head. -/
theorem robustsession_network_server_spec_witness :
    eligibleB [("a", ⟨1, 100⟩), ("b", ⟨1, 80⟩)] 50 "a" = false ∧
    eligibleB [("a", ⟨1, 100⟩), ("b", ⟨1, 80⟩)] 50 "c" = true ∧
    robustsession_network_server
      (some ⟨["a", "b", "c"], [("a", ⟨1, 100⟩), ("b", ⟨1, 80⟩)]⟩) 50 false =
      some (.picked "c" ["c", "b", "a"]) := by
  refine ⟨by decide, by decide, ?_⟩
  have h := (robustsession_network_server_spec
    (some ⟨["a", "b", "c"], [("a", ⟨1, 100⟩), ("b", ⟨1, 80⟩)]⟩) 50 false
    (by
      intro c hc
      cases hc
      simp)).2 ⟨["a", "b", "c"], [("a", ⟨1, 100⟩), ("b", ⟨1, 80⟩)]⟩
    "a" ["b", "c"] rfl rfl
  have hlt5 : 1 < (["b", "c"] ++ ["a"]).length := by simp
  exact h.2.1 (by decide) 1 hlt5
    (by
      intro j hj
      have hj0 : j = 0 := by omega
      subst hj0
      show eligibleB [("a", ⟨1, 100⟩), ("b", ⟨1, 80⟩)] 50 "b" = false
      decide)
    (by
      show eligibleB [("a", ⟨1, 100⟩), ("b", ⟨1, 80⟩)] 50 "c" = true
      decide)

theorem gAsciiStrdown_length (s : String) :
    (gAsciiStrdown s).length = s.length := by
  show (s.data.map gAsciiTolower).length = s.data.length
  simp

theorem gcharcmp_eq_comm_ci (t s : String) :
    gcharcmp_eq t s = asciiCaseEq s t := by
  unfold gcharcmp_eq asciiCaseEq
  by_cases h : gAsciiStrdown t = gAsciiStrdown s
  · have hl : t.length = s.length := by
      rw [← gAsciiStrdown_length t, ← gAsciiStrdown_length s, h]
    simp [h, hl]
  · have h2 : gAsciiStrdown s ≠ gAsciiStrdown t := fun hh => h hh.symm
    have hb1 : (gAsciiStrdown t == gAsciiStrdown s) = false := by
      simp [h]
    have hb2 : (gAsciiStrdown s == gAsciiStrdown t) = false := by
      simp [h2]
    rw [hb1, hb2, Bool.and_false]

/-- Counterexample to claim C2: a new list `[a:1]` that is a strict subset
(hence not set-equal) of the stored `[a:1, b:2]` is nevertheless discarded,
so the stored queue is not replaced wholesale. -/
theorem update_servers_counterexample :
    spec_set_equal_ci ["a:1"] ["a:1", "b:2"] = false ∧
    robustsession_network_update_servers ⟨["a:1", "b:2"], []⟩ ["a:1"] =
      ⟨["a:1", "b:2"], []⟩ := by
  constructor
  · decide
  · decide

/-- Claim C2 as amended: the update is discarded exactly when every entry of
the new list occurs case-insensitively in the stored queue — in particular
whenever the two lists are set-equal (case-insensitively), which preserves
the pick order; when some new entry is not present, the stored targets are
replaced wholesale. -/
theorem update_servers_spec (ctx : network_ctx) (new : List String) :
    (spec_set_equal_ci new ctx.servers = true →
      robustsession_network_update_servers ctx new = ctx) ∧
    (new.all (fun s => ctx.servers.any (fun t => gcharcmp_eq t s)) = false →
      (robustsession_network_update_servers ctx new).servers = new) := by
  constructor
  · intro hset
    have hsub : new.all (fun s => ctx.servers.any (fun t => gcharcmp_eq t s)) = true := by
      unfold spec_set_equal_ci at hset
      rw [Bool.and_eq_true] at hset
      rw [List.all_eq_true] at hset ⊢
      · intro s hs
        have := hset.1 s hs
        rw [List.any_eq_true] at this ⊢
        obtain ⟨t, ht, hct⟩ := this
        exact ⟨t, ht, by rw [gcharcmp_eq_comm_ci]; exact hct⟩
    simp [robustsession_network_update_servers, hsub]
  · intro hfalse
    simp [robustsession_network_update_servers, hfalse]

/-- Witness for the amended claim C2: a case-insensitive rotation
`[B:2, a:1]` of the stored `[A:1, b:2]` is discarded, leaving the stored
queue untouched. -/
theorem update_servers_spec_witness :
    spec_set_equal_ci ["B:2", "a:1"] ["A:1", "b:2"] = true ∧
    robustsession_network_update_servers ⟨["A:1", "b:2"], []⟩ ["B:2", "a:1"] =
      ⟨["A:1", "b:2"], []⟩ :=
  ⟨by decide, (update_servers_spec ⟨["A:1", "b:2"], []⟩ ["B:2", "a:1"]).1 (by decide)⟩

/-- Claim C8, evaluated at the failing input: the registry already holds the
entry for address `A,b` (stored, as everywhere else in the file, under the
case-folded key `a,b`, with a live backoff entry), yet a second resolve of
the very same address misses the cache — the lookup uses the raw string, the
insertion the folded one — and re-registers the network, resetting its
backoff state instead of invoking the callback on the unchanged entry. -/
theorem resolve_case_fold_bug :
    regLookup [("a,b", ⟨["A", "b"], [("A", ⟨1, 100⟩)]⟩)]
      (gAsciiStrdown "A,b") = some ⟨["A", "b"], [("A", ⟨1, 100⟩)]⟩ ∧
    robustsession_network_resolve
        [("a,b", ⟨["A", "b"], [("A", ⟨1, 100⟩)]⟩)] "A,b" =
      ⟨true, false, [("a,b", ⟨["A", "b"], []⟩)]⟩ ∧
    [("a,b", (⟨["A", "b"], []⟩ : network_ctx))] ≠
      [("a,b", ⟨["A", "b"], [("A", ⟨1, 100⟩)]⟩)] := by
  refine ⟨by decide, ?_, by decide⟩
  decide

/-- Helper recording the behaviour the resolve comment promises whenever the
cached-entry lookup does hit (for example for already case-folded
addresses): the callback runs immediately and the registry is untouched. -/
theorem resolve_cached_short_circuit (reg : List (String × network_ctx))
    (address : String) (h : (regLookup reg address).isSome) :
    robustsession_network_resolve reg address = ⟨true, false, reg⟩ := by
  simp [robustsession_network_resolve, h]

/-- Counterexample to claim C1: an HTTP 204 (a 2xx status) on a PostMessage
with no transport error is classified as a permanent failure — only status
exactly 200 counts as success — so `connection_lost` is set, a disconnect is
emitted and the request is not retried, where the claim expects success. -/
theorem check_multi_info_counterexample :
    (200 ≤ 204 ∧ 204 < 300) ∧
    check_multi_info_one ⟨curl_code.ok, 204, request_type.rt_postmessage⟩ =
      ⟨true, false, false, true, true⟩ := by
  constructor
  · omega
  · decide

/-- Claim C1 as amended: any transport error and any HTTP 5xx status is
temporary (the target is marked failed and the request re-issued through a
fresh pick); HTTP status exactly 200 on a non-GetMessages request is success
(`succeeded` is called, no retry, no disconnect); status 200 on a
GetMessages request is a temporary failure (failed plus retry); every other
HTTP status — including 2xx statuses other than 200 — is permanent:
`connection_lost` is set, a disconnect is emitted, and the request is not
retried. -/
theorem check_multi_info_classification (m : completion) :
    (m.result = curl_code.transport_error ∨
        (500 ≤ m.http_code ∧ m.http_code < 600) →
      check_multi_info_one m = ⟨true, false, true, false, false⟩) ∧
    (m.result = curl_code.ok → m.http_code = 200 →
        m.type ≠ request_type.rt_getmessages →
      check_multi_info_one m = ⟨false, true, false, false, false⟩) ∧
    (m.result = curl_code.ok → m.http_code = 200 →
        m.type = request_type.rt_getmessages →
      check_multi_info_one m = ⟨true, false, true, false, false⟩) ∧
    (m.result = curl_code.ok → m.http_code ≠ 200 →
        ¬(500 ≤ m.http_code ∧ m.http_code < 600) →
      check_multi_info_one m = ⟨true, false, false, true, true⟩) := by
  obtain ⟨r, code, ty⟩ := m
  refine ⟨?_, ?_, ?_, ?_⟩
  · intro h
    rcases r with _ | _
    · rcases h with h | h
      · simp at h
      · have h5 : 500 ≤ code ∧ code < 600 := h
        have hne : code ≠ 200 := by omega
        simp [check_multi_info_one, hne, h5.1, h5.2]
    · cases ty <;> simp [check_multi_info_one]
  · intro hr hc hty
    subst hr
    subst hc
    rcases ty <;> simp_all [check_multi_info_one]
  · intro hr hc hty
    subst hr
    subst hc
    subst hty
    decide
  · intro hr hc h5
    subst hr
    have hh : ¬(500 ≤ code) ∨ ¬(code < 600) := by
      by_contra hcon
      push_neg at hcon
      exact h5 ⟨hcon.1, hcon.2⟩
    rcases hh with hh | hh <;> cases ty <;>
      simp [check_multi_info_one, hc, hh]

/-- Witness for the amended claim C1: a 503 on GetMessages is temporary and
retried; a 200 on PostMessage is success; a 200 on GetMessages is treated as
a temporary failure; a 403 on PostMessage is permanent. -/
theorem check_multi_info_classification_witness :
    check_multi_info_one ⟨curl_code.ok, 503, request_type.rt_getmessages⟩ =
      ⟨true, false, true, false, false⟩ ∧
    check_multi_info_one ⟨curl_code.ok, 200, request_type.rt_postmessage⟩ =
      ⟨false, true, false, false, false⟩ ∧
    check_multi_info_one ⟨curl_code.ok, 200, request_type.rt_getmessages⟩ =
      ⟨true, false, true, false, false⟩ ∧
    check_multi_info_one ⟨curl_code.ok, 403, request_type.rt_postmessage⟩ =
      ⟨true, false, false, true, true⟩ :=
  ⟨(check_multi_info_classification
      ⟨curl_code.ok, 503, request_type.rt_getmessages⟩).1 (Or.inr (by decide)),
   (check_multi_info_classification
      ⟨curl_code.ok, 200, request_type.rt_postmessage⟩).2.1 rfl rfl (by decide),
   (check_multi_info_classification
      ⟨curl_code.ok, 200, request_type.rt_getmessages⟩).2.2.1 rfl rfl rfl,
   (check_multi_info_classification
      ⟨curl_code.ok, 403, request_type.rt_postmessage⟩).2.2.2 rfl (by decide)
      (by decide)⟩

theorem cursorSets_append (a b : List gm_effect) :
    cursorSets (a ++ b) = cursorSets a ++ cursorSets b := by
  induction a with
  | nil => rfl
  | cons x xs ih => cases x <;> simp [cursorSets, ih]

theorem pairLe_refl (a : Nat × Nat) : pairLe a a :=
  Or.inr ⟨rfl, le_refl _⟩

theorem pairLe_bot (a : Nat × Nat) : pairLe (0, 0) a := by
  rcases Nat.eq_zero_or_pos a.1 with h | h
  · exact Or.inr ⟨h.symm, Nat.zero_le _⟩
  · exact Or.inl h

/-- Helper: one parser step either leaves the cursor untouched and writes no
cursor value, or writes exactly one cursor value and sets the cursor to
it. -/
theorem gm_end_map_cursor (r : gm_request) (c : session_ctx) :
    (cursorSets (gm_json_end_map r c).2.2 = [] ∧
      (gm_json_end_map r c).2.1.lastseen = c.lastseen) ∨
    (∃ p, cursorSets (gm_json_end_map r c).2.2 = [p] ∧
      (gm_json_end_map r c).2.1.lastseen = p) := by
  unfold gm_json_end_map
  by_cases hd : (0 : Int) < r.depth - 1
  · left
    simp [hd, cursorSets]
  · cases hdata : r.data with
    | none =>
      left
      by_cases ht4 : r.last_type = 4 <;>
        simp [hd, hdata, ht4, cursorSets]
    | some d =>
      by_cases ht3 : r.last_type = 3
      · right
        refine ⟨(r.last_id_id, r.last_id_reply), ?_, ?_⟩ <;>
          simp [hd, hdata, ht3, cursorSets]
      · left
        by_cases ht4 : r.last_type = 4 <;>
          simp [hd, hdata, ht3, ht4, cursorSets]

theorem gm_step_cursor (st : gm_request × session_ctx) (e : gm_event) :
    (cursorSets (gm_step st e).2 = [] ∧
      (gm_step st e).1.2.lastseen = st.2.lastseen) ∨
    (∃ p, cursorSets (gm_step st e).2 = [p] ∧
      (gm_step st e).1.2.lastseen = p) := by
  cases e with
  | end_map => exact gm_end_map_cursor st.1 st.2
  | map_key s => exact Or.inl ⟨rfl, rfl⟩
  | int_val v => exact Or.inl ⟨rfl, rfl⟩
  | str_val s => exact Or.inl ⟨rfl, rfl⟩
  | start_map => exact Or.inl ⟨rfl, rfl⟩
  | start_array => exact Or.inl ⟨rfl, rfl⟩
  | end_array => exact Or.inl ⟨rfl, rfl⟩

theorem gm_run_states_cons_form (st : gm_request × session_ctx)
    (evs : List gm_event) : ∃ l, gm_run_states st evs = st :: l := by
  cases evs <;> simp [gm_run_states]

/-- Helper: if the cursor writes of a run form a non-decreasing chain
starting no lower than the current cursor, the cursor value over the whole
run is a non-decreasing chain. -/
theorem gm_run_chain (evs : List gm_event) :
    ∀ st : gm_request × session_ctx,
      List.Chain' pairLe (st.2.lastseen :: cursorSets (gm_run st evs).2) →
      List.Chain' pairLe
        ((gm_run_states st evs).map (fun x => x.2.lastseen)) := by
  induction evs with
  | nil =>
    intro st h
    simp [gm_run_states]
  | cons e es ih =>
    intro st h
    have heff : (gm_run st (e :: es)).2 =
        (gm_step st e).2 ++ (gm_run (gm_step st e).1 es).2 := rfl
    rw [heff, cursorSets_append] at h
    have hstates : gm_run_states st (e :: es) =
        st :: gm_run_states (gm_step st e).1 es := rfl
    rw [hstates]
    obtain ⟨l, hl⟩ := gm_run_states_cons_form (gm_step st e).1 es
    rcases gm_step_cursor st e with ⟨hc0, hsame⟩ | ⟨p, hc1, hset⟩
    · rw [hc0, List.nil_append] at h
      have hih := ih (gm_step st e).1 (by rw [hsame]; exact h)
      rw [List.map_cons, List.chain'_cons']
      refine ⟨?_, hih⟩
      intro y hy
      rw [hl] at hy
      simp at hy
      rw [← hy, hsame]
      exact pairLe_refl _
    · rw [hc1] at h
      obtain ⟨hab, hrest⟩ := List.chain'_cons.mp h
      have hih := ih (gm_step st e).1 (by rw [hset]; exact hrest)
      rw [List.map_cons, List.chain'_cons']
      refine ⟨?_, hih⟩
      intro y hy
      rw [hl] at hy
      simp at hy
      rw [← hy, hset]
      exact hab

/-- Claim C3 as amended: the cursor always equals the `(Id.Id, Id.Reply)`
pair of the most recently dispatched Type-3 frame, rendered `"<id>.<reply>"`
— each cursor write happens at a dispatch and writes that frame's pair — and
the cursor is monotonically non-decreasing over the whole session provided
the dispatched frames carry non-decreasing pairs; the code does not enforce
monotonicity against a stream whose frames go backwards. -/
theorem lastseen_cursor_spec :
    (∀ evs : List gm_event,
      List.Chain' pairLe
        (cursorSets (gm_run (gm_init_request, gm_init_ctx) evs).2) →
      List.Chain' pairLe
        ((gm_run_states (gm_init_request, gm_init_ctx) evs).map
          (fun x => x.2.lastseen))) ∧
    (∀ (st : gm_request × session_ctx) (e : gm_event) (p : Nat × Nat),
      gm_effect.cursor_set p ∈ (gm_step st e).2 →
      (gm_step st e).1.2.lastseen = p ∧
      p = (st.1.last_id_id, st.1.last_id_reply) ∧
      renderLastseen (gm_step st e).1.2.lastseen =
        toString st.1.last_id_id ++ "." ++ toString st.1.last_id_reply ∧
      ∃ d, gm_effect.incoming d ∈ (gm_step st e).2) := by
  constructor
  · intro evs h
    apply gm_run_chain
    exact List.chain'_cons'.mpr ⟨fun y _ => pairLe_bot y, h⟩
  · intro st e p hmem
    cases e with
    | map_key s => simp [gm_step] at hmem
    | int_val v => simp [gm_step] at hmem
    | str_val s => simp [gm_step] at hmem
    | start_map => simp [gm_step] at hmem
    | start_array => simp [gm_step] at hmem
    | end_array => simp [gm_step] at hmem
    | end_map =>
      have hmem2 : gm_effect.cursor_set p ∈ (gm_json_end_map st.1 st.2).2.2 :=
        hmem
      show (gm_json_end_map st.1 st.2).2.1.lastseen = p ∧
        p = (st.1.last_id_id, st.1.last_id_reply) ∧
        renderLastseen (gm_json_end_map st.1 st.2).2.1.lastseen =
          toString st.1.last_id_id ++ "." ++ toString st.1.last_id_reply ∧
        ∃ d, gm_effect.incoming d ∈ (gm_json_end_map st.1 st.2).2.2
      unfold gm_json_end_map at hmem2 ⊢
      by_cases hd : (0 : Int) < st.1.depth - 1
      · simp [hd] at hmem2
      · cases hdata : st.1.data with
        | none =>
          by_cases ht4 : st.1.last_type = 4 <;>
            simp [hd, hdata, ht4] at hmem2
        | some d =>
          by_cases ht3 : st.1.last_type = 3
          · have hmem3 : p = (st.1.last_id_id, st.1.last_id_reply) := by
              simp [hd, hdata, ht3] at hmem2
              exact hmem2
            subst hmem3
            refine ⟨?_, rfl, ?_, ⟨d, ?_⟩⟩ <;>
              simp [hd, hdata, ht3, renderLastseen]
          · by_cases ht4 : st.1.last_type = 4 <;>
              simp [hd, hdata, ht3, ht4] at hmem2

/-- Counterexample to claim C3 as stated: the stream may deliver a Type-3
frame with pair (5, 1) followed by one with pair (3, 0); the code happily
moves the cursor backwards, so `last_seen` is not monotone over every
sequence of consumed frames. -/
theorem lastseen_decreases_counterexample :
    (gm_run (gm_init_request, gm_init_ctx) gm_frame_a).1.2.lastseen = (5, 1) ∧
    (gm_run (gm_init_request, gm_init_ctx)
      (gm_frame_a ++ gm_frame_b)).1.2.lastseen = (3, 0) ∧
    gm_effect.cursor_set (5, 1) ∈
      (gm_run (gm_init_request, gm_init_ctx) (gm_frame_a ++ gm_frame_b)).2 ∧
    gm_effect.cursor_set (3, 0) ∈
      (gm_run (gm_init_request, gm_init_ctx) (gm_frame_a ++ gm_frame_b)).2 ∧
    ¬ pairLe (5, 1) (3, 0) := by
  refine ⟨rfl, rfl, by decide, by decide, by decide⟩

/-- Witness for the amended claim C3: over the single frame with pair (5, 1)
the cursor writes form a chain, so the cursor trajectory of the whole run is
non-decreasing. -/
theorem lastseen_cursor_spec_witness :
    List.Chain' pairLe
      ((gm_run_states (gm_init_request, gm_init_ctx) gm_frame_a).map
        (fun x => x.2.lastseen)) :=
  lastseen_cursor_spec.1 gm_frame_a
    (by
      have h : cursorSets (gm_run (gm_init_request, gm_init_ctx) gm_frame_a).2 =
          [(5, 1)] := rfl
      rw [h]
      exact List.chain'_singleton _)

/-- Claim C6 as amended: at a frame boundary (`depth` back to 0), the
accumulated `Data` — non-NULL whenever a `Data` string was seen, even the
empty one — is handed to the host exactly when it is non-NULL and `Type` is
3, and the `server incoming` dispatch is emitted strictly before the
`last_seen` cursor is set to the frame's `(Id.Id, Id.Reply)`. -/
theorem gm_dispatch_spec (r : gm_request) (c : session_ctx) :
    ((∃ d, gm_effect.incoming d ∈ (gm_json_end_map r c).2.2) ↔
      (¬ (0 : Int) < r.depth - 1 ∧ r.data ≠ none ∧ r.last_type = 3)) ∧
    (∀ d, r.data = some d → ¬ (0 : Int) < r.depth - 1 → r.last_type = 3 →
      (gm_json_end_map r c).2.2 =
        [gm_effect.incoming d,
         gm_effect.cursor_set (r.last_id_id, r.last_id_reply),
         gm_effect.succeeded_call] ∧
      (gm_json_end_map r c).2.1.lastseen = (r.last_id_id, r.last_id_reply)) := by
  constructor
  · unfold gm_json_end_map
    by_cases hd : (0 : Int) < r.depth - 1
    · simp [hd]
    · cases hdata : r.data with
      | none =>
        by_cases ht4 : r.last_type = 4 <;> simp [hd, hdata, ht4]
      | some d =>
        by_cases ht3 : r.last_type = 3
        · simp [hd, hdata, ht3]
        · by_cases ht4 : r.last_type = 4 <;> simp [hd, hdata, ht3, ht4]
  · intro d hdata hd ht3
    unfold gm_json_end_map
    constructor <;> simp [hd, hdata, ht3]

/-- Counterexample to claim C6 as stated: a Type-3 frame whose `Data` is the
empty string is nevertheless dispatched to the host — the code tests the
accumulated pointer against NULL, not the string against emptiness — so
"handed to the host iff Data is non-empty" fails. -/
theorem gm_dispatch_empty_counterexample :
    gm_effect.incoming "" ∈
      (gm_run (gm_init_request, gm_init_ctx) gm_frame_empty_data).2 ∧
    ("" : String).length = 0 := by
  refine ⟨by decide, rfl⟩

/-- Witness for the amended claim C6 at a concrete frame: data `"x"`, type
3, ids (7, 9), closing the only open object. -/
theorem gm_dispatch_spec_witness :
    (gm_json_end_map ⟨some "Data", some "x", false, false, 7, 9, 3, 1, none⟩
        ⟨(0, 0)⟩).2.2 =
      [gm_effect.incoming "x", gm_effect.cursor_set (7, 9),
       gm_effect.succeeded_call] ∧
    (gm_json_end_map ⟨some "Data", some "x", false, false, 7, 9, 3, 1, none⟩
        ⟨(0, 0)⟩).2.1.lastseen = (7, 9) :=
  (gm_dispatch_spec ⟨some "Data", some "x", false, false, 7, 9, 3, 1, none⟩
    ⟨(0, 0)⟩).2 "x" rfl (by decide) rfl

/-- Counterexample to claim C7 as stated: two separate `send` calls for the
same buffer draw independent `rand()` values, but nothing prevents the draws
from coinciding (here both draw 7), in which case the two PostMessages carry
the same `ClientMessageId`. -/
theorem client_message_id_collision_counterexample :
    (send_ids "JOIN #x" [7, 7]).length = 2 ∧
    (send_ids "JOIN #x" [7, 7]).get? 0 = (send_ids "JOIN #x" [7, 7]).get? 1 :=
  ⟨rfl, rfl⟩

/-- Claim C7 as amended: every `send(buf)` builds a PostMessage body
`{"Data": buf, "ClientMessageId": hash(buf) + r mod 2^32}` with `r` drawn
once at send time; retrying the request only swaps the target and clears the
response buffer, leaving body and `ClientMessageId` unchanged; and two
separate sends of the same buffer obtain different `ClientMessageId`s
exactly when their draws differ modulo 2^32. -/
theorem post_message_body_spec (sid t buf : String) (rnd : Nat) :
    (robustsession_send_target sid t buf rnd).post_body =
      some ⟨buf, (g_str_hash buf + rnd) % 2 ^ 32⟩ ∧
    (∀ t2, retry_request (robustsession_send_target sid t buf rnd) t2 =
      { robustsession_send_target sid t buf rnd with target := t2 }) ∧
    (∀ r1 r2 : Nat, r1 % 2 ^ 32 ≠ r2 % 2 ^ 32 →
      (robustsession_send_target sid t buf r1).post_body ≠
        (robustsession_send_target sid t buf r2).post_body) := by
  refine ⟨rfl, fun t2 => rfl, ?_⟩
  intro r1 r2 hne heq
  simp [robustsession_send_target, clientMessageId, post_message_body.mk.injEq] at heq
  omega

/-- Witness for the amended claim C7: draws 1 and 2 differ mod 2^32, so the
two PostMessage bodies differ. -/
theorem post_message_body_spec_witness :
    (robustsession_send_target "S" "b:60667" "JOIN #x" 1).post_body ≠
      (robustsession_send_target "S" "b:60667" "JOIN #x" 2).post_body :=
  (post_message_body_spec "S" "b:60667" "JOIN #x" 0).2.2 1 2 (by decide)

theorem c_string_read_take :
    ∀ (buf : List Nat) (count : Nat),
      (∀ x ∈ buf.take count, x ≠ 0) → buf.get? count = some 0 →
      c_string_read buf = some (buf.take count)
  | [], count, _, hg => by simp at hg
  | b :: rest, 0, _, hg => by
      simp at hg
      simp [c_string_read, hg, List.take]
  | b :: rest, count + 1, hnz, hg => by
      have hb : b ≠ 0 := hnz b (by simp)
      have hrec := c_string_read_take rest count
        (fun x hx => hnz x (by simp [hx])) (by simpa using hg)
      simp [c_string_read, hb, hrec, List.take]

/-- Claim C9 as amended: `robust_io_write(buf, n)` always reports all `n`
bytes as written, but the bytes framed as the `Data` of the PostMessage are
the NUL-terminated C-string content of `buf` — the count is discarded — so
they coincide with the first `n` bytes exactly when those are NUL-free and
the byte at offset `n` is NUL. -/
theorem robust_io_write_spec (buf : List Nat) (count : Nat) :
    (∀ d w, robust_io_write buf count = some (d, w) →
      w = count ∧ c_string_read buf = some d) ∧
    ((∀ x ∈ buf.take count, x ≠ 0) → buf.get? count = some 0 →
      robust_io_write buf count = some (buf.take count, count)) := by
  constructor
  · intro d w h
    unfold robust_io_write robustsession_send at h
    cases hcs : c_string_read buf with
    | none => rw [hcs] at h; simp at h
    | some l =>
        rw [hcs] at h
        simp at h
        exact ⟨h.2.symm, by rw [h.1]⟩
  · intro hnz hg
    have hcs := c_string_read_take buf count hnz hg
    simp [robust_io_write, robustsession_send, hcs]

/-- Counterexample to claim C9 as stated: writing 3 bytes of the buffer
`[65, 0, 66, 0]` frames only `[65]` — the bytes before the first NUL — as
`Data`, not the first 3 bytes `[65, 0, 66]`, while still reporting 3 bytes
written. -/
theorem robust_io_write_counterexample :
    robust_io_write [65, 0, 66, 0] 3 = some ([65], 3) ∧
    List.take 3 [65, 0, 66, 0] = [65, 0, 66] ∧
    ([65] : List Nat) ≠ [65, 0, 66] :=
  ⟨rfl, rfl, by decide⟩

/-- Witness for the amended claim C9: the buffer `[74, 0]` written with
count 1 frames exactly its first byte and reports 1 byte written. -/
theorem robust_io_write_spec_witness :
    robust_io_write [74, 0] 1 = some (List.take 1 [74, 0], 1) :=
  (robust_io_write_spec [74, 0] 1).2 (by decide) rfl
